import Mathlib

/-!
Shallow embedding of `src/orchestration/simple-tracker.ts`:
the `SimpleAgentTracker` and `SimpleFundingProtocol` classes together with
the `isTransferSuccessful` helper.

The persistent store (`AutomatonDatabase`) and the remote transfer client
(`ConwayClient`) are collaborators whose code is not part of this file's
source; they are modelled from the spec's description of their interfaces
(spec §6).  Store state is a pair of row lists (children table, task_graph
table); the remote client is a pair of result-valued functions where
`Except.error` models a raised exception.  JS numbers are modelled as `ℚ`
(the observed values are finite decimals), `Math.floor` as `Int.floor`,
and `String.prototype.includes` as substring containment on the character
list.
-/

namespace Automaton

/-- A row of the `children` table.  `role` is nullable (`COALESCE(role, 'generalist')`
appears in the idle query); the remaining columns are those written by `insertChild`. -/
structure ChildRow where
  id : String
  name : String
  address : String
  sandboxId : String
  genesisPrompt : String
  creatorMessage : String
  fundedAmountCents : Int
  status : String
  createdAt : String
  role : Option String
deriving DecidableEq, Repr

/-- A row of the `task_graph` table, restricted to the two columns the tracker
reads: the nullable assignment target and the task status. -/
structure TaskRow where
  assigned_to : Option String
  status : String
deriving DecidableEq, Repr

/-- Modelled from the spec: the persistent store (`AutomatonDatabase`), whose code
is outside this source file, is "a query/insert/update" interface over the two
tables (spec §6); its state is the contents of those tables. -/
structure Store where
  children : List ChildRow
  tasks : List TaskRow
deriving DecidableEq, Repr

/-- `const IDLE_STATUSES = new Set<ChildStatus>(["running", "healthy"])`. -/
def IDLE_STATUSES : List String := ["running", "healthy"]

/-- The first SQL query of `getIdle`: distinct `assigned_to` values of `task_graph`
rows with non-null target and status in `('assigned', 'running')`.  (List-with-
membership models the SQL result set; `DISTINCT` only affects multiplicity.) -/
def assignedRows (tasks : List TaskRow) : List String :=
  (tasks.filter fun t =>
    t.assigned_to.isSome && (t.status == "assigned" || t.status == "running")).filterMap
    fun t => t.assigned_to

/-- The `assignedAddresses` set of `getIdle`: the query results filtered to
non-empty strings (`typeof value === "string" && value.length > 0`; the
`typeof` test is always true in this model). -/
def assignedAddresses (tasks : List TaskRow) : List String :=
  (assignedRows tasks).filter fun a => a.length > 0

/-- A row of the second SQL query of `getIdle`: `id, name, address, status,
COALESCE(role, 'generalist') AS role`. -/
structure ChildQueryRow where
  id : String
  name : String
  address : String
  status : String
  role : String
deriving DecidableEq, Repr

/-- The second SQL query of `getIdle`: children with status in
`('running', 'healthy')`, with the role column coalesced to `"generalist"`. -/
def childrenQuery (children : List ChildRow) : List ChildQueryRow :=
  (children.filter fun c => c.status == "running" || c.status == "healthy").map
    fun c => ⟨c.id, c.name, c.address, c.status, c.role.getD "generalist"⟩

/-- An element of the sequence returned by `getIdle`. -/
structure IdleRow where
  address : String
  name : String
  role : String
  status : String
deriving DecidableEq, Repr

/-- `SimpleAgentTracker.getIdle`. -/
def getIdle (store : Store) : List IdleRow :=
  let assigned := assignedAddresses store.tasks
  ((childrenQuery store.children).filter fun child =>
      IDLE_STATUSES.contains child.status && !assigned.contains child.address).map
    fun child => ⟨child.address, child.name, child.role, child.status⟩

/-- The `{address, name}` record returned by `getBestForTask`. -/
structure Candidate where
  address : String
  name : String
deriving DecidableEq, Repr

/-- `SimpleAgentTracker.getBestForTask` (the spec's `selectForRole`):
`null` when `getIdle()` is empty, else the projection of `idle[0]`. -/
def getBestForTask (store : Store) (_role : String) : Option Candidate :=
  match getIdle store with
  | [] => none
  | first :: _ => some ⟨first.address, first.name⟩

/-- Modelled from the spec: store operation (c), "a lookup of all agents".
`this.db.getChildren()` returns the children table. -/
def getChildren (store : Store) : List ChildRow :=
  store.children

/-- Modelled from the spec: store operation (d), "an update of an agent's status
by id".  `this.db.updateChildStatus(id, status)`. -/
def updateChildStatus (store : Store) (id status : String) : Store :=
  { store with
    children := store.children.map fun c =>
      if c.id = id then { c with status := status } else c }

/-- `SimpleAgentTracker.updateStatus` (the spec's `setStatus`): find the child by
address; missing address is a silent no-op, otherwise update by its id. -/
def updateStatus (store : Store) (address status : String) : Store :=
  match (getChildren store).find? fun entry => entry.address == address with
  | none => store
  | some child => updateChildStatus store child.id status

/-- Modelled from the spec: the `ulid()` generator from the (external) `ulid`
package, "a freshly generated globally-unique, lexically-sortable identifier".
Abstracted as an injective, monotone-in-lexicographic-order, never-empty
function of a generation counter. -/
def ulid (n : Nat) : String :=
  String.mk (List.replicate (n + 1) 'u')

/-- Modelled from the spec: store operation (e), "an insert of a new agent
record".  `this.db.insertChild(row)` appends the row to the children table. -/
def insertChild (store : Store) (c : ChildRow) : Store :=
  { store with children := store.children ++ [c] }

/-- The argument record of `register`. -/
structure AgentInput where
  address : String
  name : String
  role : String
  sandboxId : String
deriving DecidableEq, Repr

/-- `SimpleAgentTracker.register`.  The generation counter `gen` stands for the
state of the ulid generator and `now` for `new Date().toISOString()`; both are
explicit inputs of the embedding.  The inserted row has no `role` column. -/
def register (store : Store) (gen : Nat) (now : String) (agent : AgentInput) :
    Store × Nat :=
  (insertChild store
    { id := ulid gen
      name := agent.name
      address := agent.address
      sandboxId := agent.sandboxId
      genesisPrompt := "Role: " ++ agent.role
      creatorMessage := "registered by orchestrator"
      fundedAmountCents := 0
      status := "running"
      createdAt := now
      role := none }, gen + 1)

/-- Result of `ConwayClient.transferCredits`: a status string and an optional
reported amount (`result.amountCents ?? amountCents` reads it). -/
structure TransferResult where
  status : String
  amountCents : Option Int
deriving DecidableEq, Repr

/-- Modelled from the spec: the remote transfer/ledger client (`ConwayClient`),
whose code is outside this source file: `transferCredits(destination,
amountCents, memo)` and `getCreditsBalance()`, both of which "may raise"
(spec §6); `Except.error` models the raised exception. -/
structure ConwayClient where
  transferCredits : String → Int → String → Except String TransferResult
  getCreditsBalance : Except String ℚ

/-- Observable remote calls, recorded so that "without invoking the transfer
client" is a statement about the embedding. -/
inductive ClientCall where
  | transfer (destination : String) (amountCents : Int) (memo : String)
  | balanceQuery
deriving DecidableEq, Repr

/-- Result record of `fundChild`. -/
structure FundResult where
  success : Bool
deriving DecidableEq, Repr

/-- Result record of `recallCredits`. -/
structure RecallResult where
  success : Bool
  amountCents : Int
deriving DecidableEq, Repr

/-- Substring containment on character lists: the model of JS
`String.prototype.includes` (searched list first, pattern second in
`strIncludes`). -/
def listIncludes (pat : List Char) : List Char → Bool
  | [] => pat.isEmpty
  | c :: rest => pat.isPrefixOf (c :: rest) || listIncludes pat rest

/-- `s.includes(pat)` for strings. -/
def strIncludes (s pat : String) : Bool :=
  listIncludes pat.data s.data

/-- Model of JS `String.prototype.trim` on the character list: drop whitespace
from both ends. -/
def trimChars (l : List Char) : List Char :=
  ((l.dropWhile Char.isWhitespace).reverse.dropWhile Char.isWhitespace).reverse

/-- `s.trim()` for strings. -/
def strTrim (s : String) : String :=
  String.mk (trimChars s.data)

/-- Model of JS `String.prototype.toLowerCase`: lowercase every character. -/
def strToLower (s : String) : String :=
  String.mk (s.data.map Char.toLower)

/-- `isTransferSuccessful` (module-level helper): trim, lowercase, then require
non-empty and free of "fail", "error", "reject". -/
def isTransferSuccessful (status : String) : Bool :=
  let normalized := strToLower (strTrim status)
  decide (0 < normalized.length)
    && !(strIncludes normalized "fail")
    && !(strIncludes normalized "error")
    && !(strIncludes normalized "reject")

/-- `SimpleFundingProtocol.fundChild`.  Never raises (the remote call is inside
`try`); the second component is the list of remote calls made. -/
def fundChild (conway : ConwayClient) (childAddress : String) (amountCents : ℚ) :
    FundResult × List ClientCall :=
  let transferAmount : Int := max 0 ⌊amountCents⌋
  if transferAmount = 0 then
    (⟨true⟩, [])
  else
    match conway.transferCredits childAddress transferAmount
        "Task funding from orchestrator" with
    | .ok result =>
        (⟨isTransferSuccessful result.status⟩,
          [.transfer childAddress transferAmount "Task funding from orchestrator"])
    | .error _ =>
        (⟨false⟩,
          [.transfer childAddress transferAmount "Task funding from orchestrator"])

/-- `SimpleFundingProtocol.getBalance`: delegates to `getCreditsBalance`,
ignoring its address argument. -/
def getBalance (conway : ConwayClient) (_childAddress : String) : Except String ℚ :=
  conway.getCreditsBalance

/-- `SimpleFundingProtocol.recallCredits`.  The balance query happens before the
`try` block, so its exception propagates (`Except.error` in the first
component); only the transfer call is caught. -/
def recallCredits (conway : ConwayClient) (identityAddress childAddress : String) :
    Except String RecallResult × List ClientCall :=
  match getBalance conway childAddress with
  | .error e => (.error e, [.balanceQuery])
  | .ok balance =>
    let amountCents : Int := max 0 ⌊balance⌋
    if amountCents = 0 then
      (.ok ⟨true, 0⟩, [.balanceQuery])
    else
      let memo := "Recall credits from " ++ childAddress
      match conway.transferCredits identityAddress amountCents memo with
      | .ok result =>
          (.ok ⟨isTransferSuccessful result.status, result.amountCents.getD amountCents⟩,
            [.balanceQuery, .transfer identityAddress amountCents memo])
      | .error _ =>
          (.ok ⟨false, 0⟩, [.balanceQuery, .transfer identityAddress amountCents memo])

/-- The spec's "busy" condition on an address: it appears as the assignment
target of some task whose status is `assigned` or `running`. -/
def BusyTarget (tasks : List TaskRow) (a : String) : Prop :=
  ∃ t ∈ tasks, t.assigned_to = some a ∧ (t.status = "assigned" ∨ t.status = "running")

instance (tasks : List TaskRow) (a : String) : Decidable (BusyTarget tasks a) :=
  List.decidableBEx _ tasks

/-- The idle-sequence element a child row would produce. -/
def idleRowOf (c : ChildRow) : IdleRow :=
  ⟨c.address, c.name, c.role.getD "generalist", c.status⟩

/-- A concrete remote client that always reports a completed transfer and a
balance of 250.7 credits; used to evaluate the funding operations. -/
def okClient : ConwayClient :=
  ⟨fun _ _ _ => .ok ⟨"completed", none⟩, .ok 250.7⟩

/-- A concrete remote client that raises on every call; used to evaluate the
exception paths of the funding operations. -/
def raisingClient : ConwayClient :=
  ⟨fun _ _ _ => .error "network down", .error "network down"⟩

/-- A concrete agent used to evaluate the tracker operations. -/
def aliceChild : ChildRow :=
  ⟨"01A", "alice", "0xa", "sbx-a", "Role: generalist", "registered by orchestrator",
    0, "running", "2026-01-02", none⟩

/-- A concrete store holding `aliceChild` and one task assigned to a different
address. -/
def aliceStore : Store :=
  ⟨[aliceChild], [⟨some "0xb", "assigned"⟩]⟩

/-- A concrete agent whose address is the empty string. -/
def emptyAddressChild : ChildRow :=
  ⟨"01B", "worker", "", "sbx-b", "Role: generalist", "registered by orchestrator",
    0, "running", "2026-01-03", none⟩

/-- A concrete store where an assigned task targets the empty-string address of
its only agent. -/
def emptyAddressStore : Store :=
  ⟨[emptyAddressChild], [⟨some "", "assigned"⟩]⟩

/-- A concrete registration input. -/
def carolInput : AgentInput :=
  ⟨"0xc", "carol", "explorer", "sbx-c"⟩

theorem listIncludes_iff (pat l : List Char) :
    listIncludes pat l = true ↔ ∃ p q, l = p ++ pat ++ q := by
  induction l with
  | nil =>
    simp only [listIncludes, List.isEmpty_iff]
    constructor
    · rintro rfl
      exact ⟨[], [], rfl⟩
    · rintro ⟨p, q, h⟩
      rcases List.append_eq_nil.mp h.symm with ⟨h1, -⟩
      exact (List.append_eq_nil.mp h1).2
  | cons c rest ih =>
    simp only [listIncludes, Bool.or_eq_true, List.isPrefixOf_iff_prefix, ih]
    constructor
    · rintro (⟨t, ht⟩ | ⟨p, q, rfl⟩)
      · exact ⟨[], t, by simp [← ht]⟩
      · exact ⟨c :: p, q, rfl⟩
    · rintro ⟨p, q, hpq⟩
      cases p with
      | nil => exact Or.inl ⟨q, by simpa using hpq.symm⟩
      | cons a p' =>
        rcases List.cons.injEq _ _ _ _ ▸ hpq with ⟨-, h2⟩
        exact Or.inr ⟨p', q, h2⟩

theorem strIncludes_iff (s pat : String) :
    strIncludes s pat = true ↔ ∃ pre post : String, s = pre ++ pat ++ post := by
  rw [strIncludes, listIncludes_iff]
  constructor
  · rintro ⟨p, q, h⟩
    exact ⟨⟨p⟩, ⟨q⟩, String.ext (by simpa using h)⟩
  · rintro ⟨pre, post, rfl⟩
    exact ⟨pre.data, post.data, by simp⟩

theorem string_eq_empty_iff (s : String) : s = "" ↔ s.length = 0 := by
  constructor
  · rintro rfl
    rfl
  · intro h
    exact String.ext ((List.length_eq_zero.mp h).trans rfl)

theorem contains_eq_true_iff {l : List String} {a : String} :
    l.contains a = true ↔ a ∈ l := by
  rw [List.contains_iff_exists_mem_beq]
  simp [beq_iff_eq]

theorem contains_eq_false_iff {l : List String} {a : String} :
    l.contains a = false ↔ a ∉ l := by
  rw [← Bool.not_eq_true, contains_eq_true_iff]

theorem mem_assignedAddresses (tasks : List TaskRow) (a : String) :
    a ∈ assignedAddresses tasks ↔ a ≠ "" ∧ BusyTarget tasks a := by
  unfold assignedAddresses assignedRows BusyTarget
  simp only [List.mem_filter, List.mem_filterMap, decide_eq_true_eq]
  constructor
  · rintro ⟨⟨t, ⟨htmem, hcond⟩, hto⟩, hlen⟩
    simp only [Bool.and_eq_true, Bool.or_eq_true, beq_iff_eq] at hcond
    refine ⟨?_, t, htmem, hto, hcond.2⟩
    intro he
    subst he
    simp [string_eq_empty_iff ""] at hlen
  · rintro ⟨hne, t, htmem, hto, hstat⟩
    refine ⟨⟨t, ⟨htmem, ?_⟩, hto⟩, ?_⟩
    · simp only [Bool.and_eq_true, Bool.or_eq_true, beq_iff_eq]
      exact ⟨by rw [hto]; rfl, hstat⟩
    · rw [Ne, string_eq_empty_iff] at hne
      omega

theorem mem_getIdle_char (store : Store) (c : ChildRow) (hc : c ∈ store.children) :
    idleRowOf c ∈ getIdle store ↔
      ((c.status = "running" ∨ c.status = "healthy") ∧
        (c.address = "" ∨ ¬ BusyTarget store.tasks c.address)) := by
  constructor
  · intro hmem
    unfold getIdle at hmem
    rw [List.mem_map] at hmem
    obtain ⟨q, hq, hfq⟩ := hmem
    rw [List.mem_filter] at hq
    obtain ⟨hq1, hq2⟩ := hq
    unfold childrenQuery at hq1
    rw [List.mem_map] at hq1
    obtain ⟨c', hc', rfl⟩ := hq1
    rw [List.mem_filter] at hc'
    obtain ⟨-, hstat⟩ := hc'
    have haddr : c'.address = c.address := congrArg IdleRow.address hfq
    have hstat2 : c'.status = c.status := congrArg IdleRow.status hfq
    simp only [Bool.or_eq_true, beq_iff_eq] at hstat
    refine ⟨hstat2 ▸ hstat, ?_⟩
    simp only [Bool.and_eq_true, Bool.not_eq_true'] at hq2
    have hnotmem : c.address ∉ assignedAddresses store.tasks := by
      rw [← haddr]
      exact contains_eq_false_iff.mp hq2.2
    rcases eq_or_ne c.address "" with he | hne
    · exact Or.inl he
    · exact Or.inr fun hbusy => hnotmem ((mem_assignedAddresses _ _).mpr ⟨hne, hbusy⟩)
  · rintro ⟨hstat, haddr⟩
    unfold getIdle
    rw [List.mem_map]
    refine ⟨⟨c.id, c.name, c.address, c.status, c.role.getD "generalist"⟩, ?_, rfl⟩
    rw [List.mem_filter]
    constructor
    · unfold childrenQuery
      rw [List.mem_map]
      refine ⟨c, ?_, rfl⟩
      rw [List.mem_filter]
      refine ⟨hc, ?_⟩
      simp only [Bool.or_eq_true, beq_iff_eq]
      exact hstat
    · simp only [Bool.and_eq_true, Bool.not_eq_true']
      constructor
      · exact contains_eq_true_iff.mpr (by
          rcases hstat with h | h <;> simp [IDLE_STATUSES, h])
      · rw [contains_eq_false_iff]
        intro hmem
        rcases (mem_assignedAddresses _ _).mp hmem with ⟨hne, hbusy⟩
        rcases haddr with he | hnb
        · exact hne he
        · exact hnb hbusy

theorem ulid_ne_empty (n : Nat) : ulid n ≠ "" := by
  rw [Ne, string_eq_empty_iff]
  simp [ulid, String.length]

theorem ulid_injective {m n : Nat} (h : ulid m = ulid n) : m = n := by
  have hlen : (ulid m).length = (ulid n).length := by rw [h]
  have : m + 1 = n + 1 := by simpa [ulid, String.length] using hlen
  omega

end Automaton

/-- C3: the transfer-success classifier returns failure iff the status, after
trimming whitespace and lowercasing, is empty or contains one of the substrings
"fail", "error", "reject"; every other string classifies as success.  In
particular "completed" classifies as success and "Rejected: insufficient funds"
as failure. -/
theorem Automaton.c3_isTransferSuccessful_characterization (s : String) :
    (Automaton.isTransferSuccessful s = false ↔
      (Automaton.strToLower (Automaton.strTrim s) = "" ∨
        (∃ pre post : String,
          Automaton.strToLower (Automaton.strTrim s) = pre ++ "fail" ++ post) ∨
        (∃ pre post : String,
          Automaton.strToLower (Automaton.strTrim s) = pre ++ "error" ++ post) ∨
        (∃ pre post : String,
          Automaton.strToLower (Automaton.strTrim s) = pre ++ "reject" ++ post))) ∧
    Automaton.isTransferSuccessful "completed" = true ∧
    Automaton.isTransferSuccessful "Rejected: insufficient funds" = false := by
  refine ⟨?_, by decide, by decide⟩
  have hne : (0 < (Automaton.strToLower (Automaton.strTrim s)).length) ↔
      ¬ (Automaton.strToLower (Automaton.strTrim s) = "") := by
    rw [Automaton.string_eq_empty_iff]
    omega
  rw [← Bool.not_eq_true, Automaton.isTransferSuccessful]
  simp only [← Automaton.strIncludes_iff]
  simp only [Bool.and_eq_true, Bool.not_eq_true', decide_eq_true_eq]
  rw [hne]
  simp only [not_and_or, not_not, Bool.not_eq_false]
  tauto

/-- C9: `getBalance` ignores its address argument: for the same remote-client
state, `getBalance a` and `getBalance b` coincide for all addresses `a`, `b`,
because the remote balance query takes no address parameter. -/
theorem Automaton.c9_getBalance_ignores_address
    (conway : Automaton.ConwayClient) (a b : String) :
    Automaton.getBalance conway a = Automaton.getBalance conway b :=
  rfl

/-- C4: `fundChild` clamps its amount to the non-negative integer
`max 0 ⌊amountCents⌋`; every remote call it makes transfers exactly that
clamped amount to the child, and whenever the clamped amount is zero it
returns success having made no remote call. -/
theorem Automaton.c4_fundChild_clamps (conway : Automaton.ConwayClient)
    (addr : String) (amountCents : ℚ) :
    (∀ call ∈ (Automaton.fundChild conway addr amountCents).2,
        call = .transfer addr (max 0 ⌊amountCents⌋) "Task funding from orchestrator") ∧
    (max 0 ⌊amountCents⌋ = 0 →
      Automaton.fundChild conway addr amountCents = (⟨true⟩, [])) := by
  unfold Automaton.fundChild
  by_cases h : (max 0 ⌊amountCents⌋ : Int) = 0
  · simp [h]
  · rcases hres : conway.transferCredits addr (max 0 ⌊amountCents⌋)
        "Task funding from orchestrator" with e | r <;>
      simp [h, hres]

/-- C4 witness: `fundChild` at amount `-5` succeeds with no remote call. -/
theorem Automaton.c4_witness :
    Automaton.fundChild Automaton.okClient "child" (-5) =
      (⟨true⟩, []) := by
  refine (Automaton.c4_fundChild_clamps Automaton.okClient "child" (-5)).2 ?_
  have : (⌊(-5 : ℚ)⌋ : Int) = -5 := by
    norm_num [Int.floor_eq_iff]
  rw [this]
  decide

/-- C5: `recallCredits` first reads the balance and clamps it to
`max 0 ⌊balance⌋`; a zero clamped balance yields `{success: true,
amountCents: 0}` with no transfer call; otherwise it transfers the clamped
amount to the orchestrator's own identity address, and when the remote call
returns a result, the reported amount is used when present, else the clamped
balance. -/
theorem Automaton.c5_recallCredits_balance (conway : Automaton.ConwayClient)
    (identityAddress childAddress : String) (balance : ℚ)
    (hb : conway.getCreditsBalance = .ok balance) :
    (max 0 ⌊balance⌋ = 0 →
      Automaton.recallCredits conway identityAddress childAddress =
        (.ok ⟨true, 0⟩, [.balanceQuery])) ∧
    (∀ r : Automaton.TransferResult, max 0 ⌊balance⌋ ≠ 0 →
      conway.transferCredits identityAddress (max 0 ⌊balance⌋)
          ("Recall credits from " ++ childAddress) = .ok r →
      Automaton.recallCredits conway identityAddress childAddress =
        (.ok ⟨Automaton.isTransferSuccessful r.status,
            r.amountCents.getD (max 0 ⌊balance⌋)⟩,
          [.balanceQuery,
            .transfer identityAddress (max 0 ⌊balance⌋)
              ("Recall credits from " ++ childAddress)])) := by
  unfold Automaton.recallCredits Automaton.getBalance
  rw [hb]
  by_cases h : (max 0 ⌊balance⌋ : Int) = 0
  · simp [h]
  · refine ⟨fun h0 => absurd h0 h, fun r _ hres => ?_⟩
    simp [h, hres]

/-- C5 witness: with a remote balance of 250.7 the recall clamps to 250 and
transfers 250 to the orchestrator address. -/
theorem Automaton.c5_witness :
    Automaton.recallCredits Automaton.okClient "orch" "child" =
      (.ok ⟨true, 250⟩,
        [.balanceQuery, .transfer "orch" 250 ("Recall credits from " ++ "child")]) := by
  have hamt : (max 0 ⌊(250.7 : ℚ)⌋ : Int) = 250 := by
    norm_num [Int.floor_eq_iff]
  have h := (Automaton.c5_recallCredits_balance Automaton.okClient "orch" "child"
      250.7 rfl).2 ⟨"completed", none⟩ (by rw [hamt]; norm_num) (by rw [hamt]; rfl)
  rw [h, hamt]
  simp [show Automaton.isTransferSuccessful "completed" = true from by decide,
    Option.getD_none]

/-- C2 counterexample: with a remote client whose balance query raises,
`recallCredits` propagates the exception (the balance query is performed
before the `try` block), so the claim that no exception escapes and the
result is `{success: false, amountCents: 0}` fails at this input. -/
theorem Automaton.c2_counterexample :
    (Automaton.recallCredits Automaton.raisingClient "orch" "child").1 =
      Except.error "network down" :=
  rfl

/-- C2 amended: an exception raised by the remote *transfer* call is caught
by both operations and mapped to `{success: false}` (`amountCents: 0` for
recall); but an exception raised by the balance query of `recallCredits`
escapes the operation. -/
theorem Automaton.c2_amended_exception_boundary (conway : Automaton.ConwayClient)
    (identityAddress childAddress : String) (q balance : ℚ) (e : String)
    (ht : ∀ dest amt memo, conway.transferCredits dest amt memo = .error e) :
    (max 0 ⌊q⌋ ≠ 0 →
      Automaton.fundChild conway childAddress q =
        (⟨false⟩, [.transfer childAddress (max 0 ⌊q⌋) "Task funding from orchestrator"])) ∧
    (conway.getCreditsBalance = .ok balance → max 0 ⌊balance⌋ ≠ 0 →
      Automaton.recallCredits conway identityAddress childAddress =
        (.ok ⟨false, 0⟩,
          [.balanceQuery,
            .transfer identityAddress (max 0 ⌊balance⌋)
              ("Recall credits from " ++ childAddress)])) ∧
    (conway.getCreditsBalance = .error e →
      (Automaton.recallCredits conway identityAddress childAddress).1 =
        .error e) := by
  refine ⟨fun hq => ?_, fun hb h0 => ?_, fun hb => ?_⟩
  · unfold Automaton.fundChild
    simp [hq, ht]
  · unfold Automaton.recallCredits Automaton.getBalance
    rw [hb]
    simp [h0, ht]
  · unfold Automaton.recallCredits Automaton.getBalance
    rw [hb]

/-- C2 amended witness: the always-raising client: `fundChild` at amount 7
reports failure without raising, and `recallCredits` propagates the
balance-query exception. -/
theorem Automaton.c2_amended_witness :
    Automaton.fundChild Automaton.raisingClient "child" 7 =
      (⟨false⟩, [.transfer "child" 7 "Task funding from orchestrator"]) ∧
    (Automaton.recallCredits Automaton.raisingClient "orch" "child").1 =
      Except.error "network down" := by
  have hamt : (max 0 ⌊(7 : ℚ)⌋ : Int) = 7 := by
    norm_num [Int.floor_eq_iff]
  have h := Automaton.c2_amended_exception_boundary Automaton.raisingClient
      "orch" "child" 7 0 "network down" (fun _ _ _ => rfl)
  refine ⟨?_, h.2.2 rfl⟩
  have h1 := h.1 (by rw [hamt]; norm_num)
  rw [hamt] at h1
  exact h1

/-- C1 counterexample: the claim "an agent is in `getIdle` iff its status is
running/healthy and its address is not an assignment target of an
assigned/running task" fails at a store whose only agent has the empty-string
address while an assigned task targets the empty string: the agent is listed
idle although its address is an assignment target. -/
theorem Automaton.c1_counterexample :
    ¬ ∀ (store : Automaton.Store), ∀ c ∈ store.children,
        (Automaton.idleRowOf c ∈ Automaton.getIdle store ↔
          ((c.status = "running" ∨ c.status = "healthy") ∧
            ¬ Automaton.BusyTarget store.tasks c.address)) := by
  intro h
  have hiff := h Automaton.emptyAddressStore Automaton.emptyAddressChild (by decide)
  exact (hiff.mp (by decide)).2 (by decide)

/-- C1 amended: an agent appears in `getIdle` iff its status is in
{running, healthy} and either its address is the empty string or its address
is not an assignment target of any assigned/running task (the implementation
drops empty-string targets from the busy set). -/
theorem Automaton.c1_amended_idle_iff :
    ∀ (store : Automaton.Store), ∀ c ∈ store.children,
      (Automaton.idleRowOf c ∈ Automaton.getIdle store ↔
        ((c.status = "running" ∨ c.status = "healthy") ∧
          (c.address = "" ∨ ¬ Automaton.BusyTarget store.tasks c.address))) :=
  fun store c hc => Automaton.mem_getIdle_char store c hc

/-- C1 amended witness: `aliceChild` (status running, address `0xa` not
targeted by the assigned task) is listed idle in `aliceStore`. -/
theorem Automaton.c1_amended_witness :
    Automaton.idleRowOf Automaton.aliceChild ∈ Automaton.getIdle Automaton.aliceStore :=
  (Automaton.c1_amended_idle_iff Automaton.aliceStore Automaton.aliceChild
      (by decide)).mpr ⟨Or.inl rfl, Or.inr (by decide)⟩

/-- C10: an agent whose address is the empty string and whose status is running
or healthy is reported idle even when some assigned/running task has the empty
string as its assignment target — empty-string targets are excluded from the
busy-address set. -/
theorem Automaton.c10_empty_address_reported_idle (store : Automaton.Store)
    (c : Automaton.ChildRow) (hc : c ∈ store.children) (haddr : c.address = "")
    (hstat : c.status = "running" ∨ c.status = "healthy")
    (t : Automaton.TaskRow) (_htmem : t ∈ store.tasks)
    (_hto : t.assigned_to = some "")
    (_htstat : t.status = "assigned" ∨ t.status = "running") :
    Automaton.idleRowOf c ∈ Automaton.getIdle store :=
  (Automaton.mem_getIdle_char store c hc).mpr ⟨hstat, Or.inl haddr⟩

/-- C10 witness: in `emptyAddressStore` the empty-address running agent is
listed idle although an assigned task targets the empty string. -/
theorem Automaton.c10_witness :
    Automaton.idleRowOf Automaton.emptyAddressChild ∈
      Automaton.getIdle Automaton.emptyAddressStore :=
  Automaton.c10_empty_address_reported_idle Automaton.emptyAddressStore
    Automaton.emptyAddressChild (by decide) rfl (Or.inl rfl)
    ⟨some "", "assigned"⟩ (by decide) rfl (Or.inl rfl)

/-- C6: `getBestForTask` returns `none` iff `getIdle` is empty; otherwise it
returns the address and name of the first element of `getIdle`; and the role
argument has no influence on the result. -/
theorem Automaton.c6_getBestForTask (store : Automaton.Store) (role : String) :
    (Automaton.getBestForTask store role = none ↔ Automaton.getIdle store = []) ∧
    (∀ first rest, Automaton.getIdle store = first :: rest →
      Automaton.getBestForTask store role = some ⟨first.address, first.name⟩) ∧
    (∀ role2, Automaton.getBestForTask store role =
      Automaton.getBestForTask store role2) := by
  unfold Automaton.getBestForTask
  rcases h : Automaton.getIdle store with - | ⟨first, rest⟩ <;>
    simp_all

/-- C6 witness: in `aliceStore` (one idle agent) any role argument selects
alice. -/
theorem Automaton.c6_witness :
    Automaton.getBestForTask Automaton.aliceStore "role-x" =
      some ⟨"0xa", "alice"⟩ :=
  (Automaton.c6_getBestForTask Automaton.aliceStore "role-x").2.1
    ⟨"0xa", "alice", "generalist", "running"⟩ [] (by decide)

/-- C7: `register` inserts a record with status running, funded amount zero,
genesis metadata derived from the role, the fixed orchestrator creator message,
and a fresh non-empty identifier distinct from every previously generated one;
the generator state advances. -/
theorem Automaton.c7_register (store : Automaton.Store) (gen : Nat) (now : String)
    (agent : Automaton.AgentInput) :
    ∃ r : Automaton.ChildRow,
      r ∈ (Automaton.register store gen now agent).1.children ∧
      r.status = "running" ∧
      r.fundedAmountCents = 0 ∧
      r.name = agent.name ∧
      r.address = agent.address ∧
      r.sandboxId = agent.sandboxId ∧
      r.genesisPrompt = "Role: " ++ agent.role ∧
      r.creatorMessage = "registered by orchestrator" ∧
      r.createdAt = now ∧
      r.id = Automaton.ulid gen ∧
      r.id ≠ "" ∧
      (∀ m, m < gen → Automaton.ulid m ≠ r.id) ∧
      (Automaton.register store gen now agent).2 = gen + 1 := by
  refine ⟨_, List.mem_append_right _ (List.mem_singleton.mpr rfl), rfl, rfl, rfl,
    rfl, rfl, rfl, rfl, rfl, rfl, Automaton.ulid_ne_empty gen, ?_, rfl⟩
  intro m hm heq
  exact absurd (Automaton.ulid_injective heq) (Nat.ne_of_lt hm)

/-- C7 witness: registering carol at generation 3 into the empty store. -/
theorem Automaton.c7_witness :
    ∃ r : Automaton.ChildRow,
      r ∈ (Automaton.register ⟨[], []⟩ 3 "2026-01-04" Automaton.carolInput).1.children ∧
      r.status = "running" ∧
      r.fundedAmountCents = 0 ∧
      r.name = Automaton.carolInput.name ∧
      r.address = Automaton.carolInput.address ∧
      r.sandboxId = Automaton.carolInput.sandboxId ∧
      r.genesisPrompt = "Role: " ++ Automaton.carolInput.role ∧
      r.creatorMessage = "registered by orchestrator" ∧
      r.createdAt = "2026-01-04" ∧
      r.id = Automaton.ulid 3 ∧
      r.id ≠ "" ∧
      (∀ m, m < 3 → Automaton.ulid m ≠ r.id) ∧
      (Automaton.register ⟨[], []⟩ 3 "2026-01-04" Automaton.carolInput).2 = 3 + 1 :=
  Automaton.c7_register ⟨[], []⟩ 3 "2026-01-04" Automaton.carolInput

/-- C8: `updateStatus` with an address no stored agent has leaves the store
unchanged (and, being a total function, raises nothing); when some agent has
the address, the new status is persisted unconditionally, with no validation
of the transition. -/
theorem Automaton.c8_updateStatus (store : Automaton.Store)
    (address status : String) :
    ((∀ c ∈ store.children, c.address ≠ address) →
      Automaton.updateStatus store address status = store) ∧
    ((∃ c ∈ store.children, c.address = address) →
      ∃ c' ∈ (Automaton.updateStatus store address status).children,
        c'.address = address ∧ c'.status = status) := by
  constructor
  · intro hnone
    unfold Automaton.updateStatus
    have hfind : (Automaton.getChildren store).find?
        (fun entry => entry.address == address) = none := by
      rw [List.find?_eq_none]
      intro x hx
      simp only [beq_iff_eq, Bool.not_eq_true, decide_eq_false_iff_not]
      exact hnone x hx
    rw [hfind]
  · rintro ⟨c, hc, hca⟩
    rcases hfind : (Automaton.getChildren store).find?
        (fun entry => entry.address == address) with - | child
    · rw [List.find?_eq_none] at hfind
      exact absurd (by simp [beq_iff_eq, hca]) (hfind c hc)
    · have hchildmem : child ∈ Automaton.getChildren store :=
        List.mem_of_find?_eq_some hfind
      have hchildaddr := List.find?_some hfind
      simp only [beq_iff_eq] at hchildaddr
      have hupd : Automaton.updateStatus store address status =
          Automaton.updateChildStatus store child.id status := by
        unfold Automaton.updateStatus
        rw [hfind]
      rw [hupd]
      unfold Automaton.updateChildStatus
      refine ⟨{ child with status := status }, ?_, hchildaddr, rfl⟩
      rw [List.mem_map]
      exact ⟨child, hchildmem, by simp⟩

/-- C8 witness: updating alice's status to "stopped" persists it. -/
theorem Automaton.c8_witness :
    ∃ c' ∈ (Automaton.updateStatus Automaton.aliceStore "0xa" "stopped").children,
      c'.address = "0xa" ∧ c'.status = "stopped" :=
  (Automaton.c8_updateStatus Automaton.aliceStore "0xa" "stopped").2
    ⟨Automaton.aliceChild, by decide, rfl⟩
